import Mathlib

/-!
Shallow embedding of the metar-command-center web application (TypeScript),
covering: flight-category derivation and METAR/TAF decoding (`metarUtils`),
the maintenance outage ledger (`app/api/maintenance/route.ts`), the station
statistics derivation (`stores/maintenanceStore.ts`), and the nationwide
fetch deduplication (`app/api/metar/all/route.ts`).

Numbers are modelled as `ℚ` (JS numbers used here are exact small decimals),
epoch-millisecond timestamps as `ℤ`, strings as Lean `String` (raw METAR text
is handled at the `List Char` level), and JS objects / `Map`s as insertion
ordered association lists.  Fields of the source records that no claim touches
(winds, temperatures, coordinates, ...) are omitted from the record types;
every field that is embedded follows the TypeScript expression computing it.
-/

/-! ### Flight category (`determineFltCat`, src/lib/metarUtils.ts) -/

/-- The TS union type `"VFR" | "MVFR" | "IFR" | "LIFR"`. -/
inductive FltCat
  | VFR
  | MVFR
  | IFR
  | LIFR
  deriving DecidableEq

/-- A provider cloud layer `{ cover: string; base: number }`. -/
structure Cloud where
  cover : String
  base : ℚ
  deriving DecidableEq

/-- The TS type `number | string | undefined` of the `visib` field. -/
inductive JSVis
  | num (q : ℚ)
  | str (s : String)
  | undef
  deriving DecidableEq

/-- `typeof visib === "number" ? visib : 10`. -/
def visOf : JSVis → ℚ
  | .num q => q
  | .str _ => 10
  | .undef => 10

/-- `c.cover === "BKN" || c.cover === "OVC" || c.cover === "VV"`. -/
def isCeilingLayer (c : Cloud) : Bool :=
  c.cover == "BKN" || c.cover == "OVC" || c.cover == "VV"

/-- `c.base < ceiling`, where `none` stands for `Infinity`. -/
def beatsCeiling (acc : Option ℚ) (b : ℚ) : Bool :=
  match acc with
  | none => true
  | some x => decide (b < x)

/-- The `for (const c of clouds)` loop of `determineFltCat`: running minimum
base over qualifying layers, `none` playing the role of `Infinity`. -/
def ceilingFold : List Cloud → Option ℚ → Option ℚ
  | [], acc => acc
  | c :: rest, acc =>
      ceilingFold rest
        (if isCeilingLayer c && beatsCeiling acc c.base then some c.base else acc)

/-- `ceiling < bound` with `ceiling` possibly `Infinity` (`none`). -/
def ceilLtB (ceiling : Option ℚ) (bound : ℚ) : Bool :=
  match ceiling with
  | none => false
  | some c => decide (c < bound)

/-- `determineFltCat(visib, clouds)` from src/lib/metarUtils.ts. -/
def determineFltCat (visib : JSVis) (clouds : Option (List Cloud)) : FltCat :=
  let ceiling := ceilingFold (clouds.getD []) none
  let vis := visOf visib
  if ceilLtB ceiling 500 || decide (vis < 1) then .LIFR
  else if ceilLtB ceiling 1000 || decide (vis < 3) then .IFR
  else if ceilLtB ceiling 3000 || decide (vis ≤ 5) then .MVFR
  else .VFR

/-- Spec-side qualifying test: cover code ∈ {BKN, OVC, VV}. -/
def specQualifies (c : Cloud) : Bool :=
  c.cover == "BKN" || c.cover == "OVC" || c.cover == "VV"

/-- Spec-side ceiling: minimum `base` among qualifying layers, `none`
(= +infinity) when none qualify. -/
def specCeiling : List Cloud → Option ℚ
  | [] => none
  | c :: rest =>
      let m := specCeiling rest
      if specQualifies c then
        some (match m with | none => c.base | some x => min c.base x)
      else m

/-- Spec-side `ceiling < bound` with `none` = +infinity. -/
def specBelow (ceiling : Option ℚ) (bound : ℚ) : Bool :=
  match ceiling with
  | none => false
  | some c => decide (c < bound)

/-- The flight-category algorithm exactly as the specification words it:
ceiling = min base over BKN/OVC/VV layers (+infinity if none), visibility =
supplied number or 10, then the LIFR/IFR/MVFR/VFR cascade in order. -/
def fltCatSpec (visib : JSVis) (clouds : Option (List Cloud)) : FltCat :=
  let ceiling := specCeiling (clouds.getD [])
  let vis := visOf visib
  if specBelow ceiling 500 || decide (vis < 1) then .LIFR
  else if specBelow ceiling 1000 || decide (vis < 3) then .IFR
  else if specBelow ceiling 3000 || decide (vis ≤ 5) then .MVFR
  else .VFR

/-- Option-level minimum, `none` acting as +infinity. -/
def omin : Option ℚ → Option ℚ → Option ℚ
  | none, b => b
  | some x, none => some x
  | some x, some y => some (min x y)

/-! ### Maintenance ledger (src/app/api/maintenance/route.ts) -/

/-- `OutageEvent` from route.ts. -/
structure OutageEvent where
  icao : String
  stationName : String
  startTime : ℤ
  startTimeZulu : String
  endTime : Option ℤ
  endTimeZulu : Option String
  duration : Option ℤ
  deriving DecidableEq

/-- `StationStatus` from route.ts. -/
structure StationStatus where
  hasFlag : Bool
  lastSeen : ℤ
  lastObsTime : ℤ
  lastObsTimeZulu : String
  stationName : String
  deriving DecidableEq

/-- `MaintenanceData`: the persisted ledger.  The `stationStatus` JS object is
modelled as an insertion-ordered association list. -/
structure MaintenanceData where
  stationStatus : List (String × StationStatus)
  outageLog : List OutageEvent
  deriving DecidableEq

/-- One element of the POST request body. -/
structure MaintUpdate where
  icao : String
  stationName : String
  hasFlag : Bool
  obsTime : ℤ
  observationTime : String
  deriving DecidableEq

/-- `{ stationStatus: {}, outageLog: [] }`. -/
def emptyData : MaintenanceData := ⟨[], []⟩

/-- JS `Math.round`: round half toward +infinity, i.e. `⌊x + 1/2⌋`. -/
def jsRound (q : ℚ) : ℤ := ⌊q + 1 / 2⌋

/-- JS object property write `m[k] = v`: replace in place if the key is
present, otherwise append. -/
def aset {α : Type} : List (String × α) → String → α → List (String × α)
  | [], k, v => [(k, v)]
  | (k', v') :: rest, k, v =>
      if k' = k then (k, v) :: rest else (k', v') :: aset rest k v

/-- JS object property read `m[k]`. -/
def alookup {α : Type} : List (String × α) → String → Option α
  | [], _ => none
  | (k', v') :: rest, k => if k' = k then some v' else alookup rest k

/-- The event pushed when a station goes down: start fields from the
observation itself, end fields null. -/
def openEvent (u : MaintUpdate) : OutageEvent :=
  { icao := u.icao, stationName := u.stationName, startTime := u.obsTime,
    startTimeZulu := u.observationTime, endTime := none, endTimeZulu := none,
    duration := none }

/-- The `outageLog.map` body run when a station comes back up: close every
open event of that station using the observation time, clamping the duration
at 0. -/
def closeEvent (icao : String) (obsTime : ℤ) (observationTime : String)
    (e : OutageEvent) : OutageEvent :=
  if e.icao = icao ∧ e.endTime = none then
    let d := jsRound (((obsTime - e.startTime : ℤ) : ℚ) / 60000)
    { e with endTime := some obsTime, endTimeZulu := some observationTime,
             duration := some (if d > 0 then d else 0) }
  else e

/-- The body of the `for (const update of updates)` loop of POST.
`now` is the wall clock (`Date.now()`), used only for `lastSeen`. -/
def processUpdate (now : ℤ) (d : MaintenanceData) (u : MaintUpdate) :
    MaintenanceData :=
  let wasDown : Bool :=
    match alookup d.stationStatus u.icao with
    | some st => st.hasFlag
    | none => false
  let log :=
    if wasDown ≠ u.hasFlag then
      if u.hasFlag = true ∧ wasDown = false then d.outageLog ++ [openEvent u]
      else if u.hasFlag = false ∧ wasDown = true then
        d.outageLog.map (closeEvent u.icao u.obsTime u.observationTime)
      else d.outageLog
    else d.outageLog
  { stationStatus :=
      aset d.stationStatus u.icao
        { hasFlag := u.hasFlag, lastSeen := now, lastObsTime := u.obsTime,
          lastObsTimeZulu := u.observationTime, stationName := u.stationName },
    outageLog := log }

/-- `if (outageLog.length > 1000) outageLog = outageLog.slice(-1000)`. -/
def trimLog (log : List OutageEvent) : List OutageEvent :=
  if log.length > 1000 then log.drop (log.length - 1000) else log

/-- One whole POST batch: fold the updates, then apply the retention cap. -/
def processBatch (now : ℤ) (d : MaintenanceData) (us : List MaintUpdate) :
    MaintenanceData :=
  let d' := us.foldl (processUpdate now) d
  { d' with outageLog := trimLog d'.outageLog }

/-- `e.icao === s && e.endTime === null`: `e` is an open event of station
`s`. -/
def isOpenFor (s : String) (e : OutageEvent) : Bool :=
  decide (e.icao = s ∧ e.endTime = none)

/-- Number of open events of station `s` in a log. -/
def openCount (s : String) (log : List OutageEvent) : ℕ :=
  log.countP (isOpenFor s)

/-- `stationStatus[s]?.hasFlag ?? false`. -/
def flagOf (d : MaintenanceData) (s : String) : Bool :=
  match alookup d.stationStatus s with
  | some st => st.hasFlag
  | none => false

/-- The inductive ledger invariant: each station has at most one open event,
and a station whose stored flag reads false (also when the station is
absent) has none. -/
def LedgerInv (d : MaintenanceData) : Prop :=
  ∀ s, openCount s d.outageLog ≤ 1 ∧
    (flagOf d s = false → openCount s d.outageLog = 0)

/-- Ledger states reachable from the empty ledger by POST batches. -/
inductive Reachable : MaintenanceData → Prop
  | empty : Reachable emptyData
  | batch (now : ℤ) (us : List MaintUpdate) {d : MaintenanceData} :
      Reachable d → Reachable (processBatch now d us)

/-! ### Persistence shell of the maintenance route (`getData` / POST result) -/

/-- Outcome of `redis.get(MAINTENANCE_KEY)`: a stored blob, `null`, or a
thrown error. -/
inductive RedisRead
  | hasData (d : MaintenanceData)
  | nullBlob
  | failed
  deriving DecidableEq

/-- Outcome of reading and parsing the fallback file: parsed content, ENOENT,
or any other error. -/
inductive FileRead
  | content (d : MaintenanceData)
  | missing
  | failed
  deriving DecidableEq

/-- `getData()`: Redis first when configured (errors and `null` map to the
empty ledger), otherwise the file fallback (ENOENT and read errors map to the
empty ledger). -/
def getData (redisConfigured : Bool) (r : RedisRead) (f : FileRead) :
    MaintenanceData :=
  if redisConfigured then
    match r with
    | .hasData d => d
    | .nullBlob => emptyData
    | .failed => emptyData
  else
    match f with
    | .content d => d
    | .missing => emptyData
    | .failed => emptyData

/-- The POST handler's reply: `{ success: true }`, or the explicit
`{ error: "Failed to persist data" }` with HTTP status 500. -/
inductive PostOutcome
  | ok
  | persistFailed
  deriving DecidableEq

/-- The whole POST round: load the ledger, process the batch, then report
the save result; the reply is `persistFailed` exactly when `saveData`
returned false. -/
def runPOST (redisConfigured : Bool) (r : RedisRead) (f : FileRead) (now : ℤ)
    (us : List MaintUpdate) (saveOk : Bool) : PostOutcome × MaintenanceData :=
  let d := processBatch now (getData redisConfigured r f) us
  (if saveOk then .ok else .persistFailed, d)

/-! ### Station statistics (`getStationStats`, src/stores/maintenanceStore.ts) -/

/-- `StationStats` from the store (fields in source order). -/
structure StationStats where
  icao : String
  stationName : String
  totalOutages : ℕ
  totalDowntimeMinutes : ℤ
  averageDowntimeMinutes : ℤ
  longestOutageMinutes : ℤ
  firstOutage : Option ℤ
  lastOutage : Option ℤ
  currentlyDown : Bool
  currentOutageStart : Option ℤ
  deriving DecidableEq

/-- The fresh stats record created when a station is first met in the log. -/
def initStats (e : OutageEvent) : StationStats :=
  { icao := e.icao, stationName := e.stationName, totalOutages := 0,
    totalDowntimeMinutes := 0, averageDowntimeMinutes := 0,
    longestOutageMinutes := 0, firstOutage := some e.startTime,
    lastOutage := none, currentlyDown := false, currentOutageStart := none }

/-- The body of the `for (const event of outageLog)` loop. -/
def updStats (st : StationStats) (e : OutageEvent) : StationStats :=
  let st1 := { st with totalOutages := st.totalOutages + 1 }
  let st2 :=
    match e.duration with
    | some dur =>
        { st1 with totalDowntimeMinutes := st1.totalDowntimeMinutes + dur,
                   longestOutageMinutes := max st1.longestOutageMinutes dur }
    | none => st1
  let st3 :=
    match st2.firstOutage with
    | none => { st2 with firstOutage := some e.startTime }
    | some f =>
        if e.startTime < f then { st2 with firstOutage := some e.startTime }
        else st2
  let st4 := { st3 with lastOutage := some e.startTime }
  match e.endTime with
  | none => { st4 with currentlyDown := true,
                       currentOutageStart := some e.startTime }
  | some _ => st4

/-- The first pass of `getStationStats`: build the `statsMap` by folding the
log (a missed lookup creates the record and then runs the loop body on it). -/
def statsFold : List OutageEvent → List (String × StationStats) →
    List (String × StationStats)
  | [], acc => acc
  | e :: rest, acc =>
      match alookup acc e.icao with
      | some st => statsFold rest (aset acc e.icao (updStats st e))
      | none => statsFold rest (aset acc e.icao (updStats (initStats e) e))

/-- The second pass: overwrite `averageDowntimeMinutes` with
`Math.round(totalDowntimeMinutes / completedOutages)` when the station has at
least one completed outage in the log. -/
def fixAvg (log : List OutageEvent) (st : StationStats) : StationStats :=
  let completed :=
    (log.filter (fun e => decide (e.icao = st.icao ∧ e.duration ≠ none))).length
  if completed > 0 then
    { st with averageDowntimeMinutes :=
        jsRound ((st.totalDowntimeMinutes : ℚ) / (completed : ℚ)) }
  else st

/-- `getStationStats()` as a function of the outage log. -/
def getStationStats (log : List OutageEvent) : List StationStats :=
  (statsFold log []).map (fun p => fixAvg log p.2)

/-- The stats entry the derivation holds for one given station. -/
def statsForStation (log : List OutageEvent) (s : String) :
    Option StationStats :=
  (alookup (statsFold log []) s).map (fixAvg log)

/-- The events of station `s`, in log order. -/
def stationEvents (s : String) (log : List OutageEvent) : List OutageEvent :=
  log.filter (fun e => decide (e.icao = s))

/-- The durations of the closed events of station `s`, in log order. -/
def closedDurations (s : String) (log : List OutageEvent) : List ℤ :=
  (stationEvents s log).filterMap (fun e => e.duration)

/-- The stats record the first pass computes for one station, expressed over
that station's own events only: the first event seeds the record and is then
processed like the others. -/
def perStation (s : String) (log : List OutageEvent) : Option StationStats :=
  match stationEvents s log with
  | [] => none
  | e :: rest => some (rest.foldl updStats (updStats (initStats e) e))

/-- Minimum of a list of integers, `none` when empty (spec side). -/
def minOfList (l : List ℤ) : Option ℤ :=
  match l with
  | [] => none
  | x :: xs => some (xs.foldl min x)

/-- Maximum of a list of integers, `none` when empty (spec side). -/
def maxOfList (l : List ℤ) : Option ℤ :=
  match l with
  | [] => none
  | x :: xs => some (xs.foldl max x)

/-! ### METAR decoding (`transformMetar`, src/lib/metarUtils.ts) -/

/-- The JS whitespace set recognised by `String.prototype.trim` (space, tab,
LF, VT, FF, CR, NBSP, BOM, and the line/paragraph separators). -/
def isJsSpace (c : Char) : Bool :=
  c = ' ' || c = '\t' || c = '\n' || c = '\r' || c.val = 11 || c.val = 12 ||
  c.val = 160 || c.val = 0xFEFF || c.val = 0x2028 || c.val = 0x2029

/-- `String.prototype.trim` on the character list of a string. -/
def jsTrimL (l : List Char) : List Char :=
  ((l.dropWhile isJsSpace).reverse.dropWhile isJsSpace).reverse

/-- `String.prototype.endsWith` on character lists. -/
def endsWithL (l suffix : List Char) : Bool :=
  suffix.isSuffixOf l

/-- `rawOb?.trim().endsWith("$") || false`. -/
def hasMaintFlag (rawOb : Option String) : Bool :=
  match rawOb with
  | some s => endsWithL (jsTrimL s.data) ['$']
  | none => false

/-- The fields of `AwcMetarResponse` that the embedded decoding reads. -/
structure AwcMetar where
  icaoId : String
  rawOb : Option String
  name : String
  visib : JSVis
  fltCat : Option String
  clouds : Option (List Cloud)
  deriving DecidableEq

/-- An output cloud layer `{ cover, base_ft }`. -/
structure CloudOut where
  cover : String
  base_ft : ℚ
  deriving DecidableEq

/-- The fields of the decoded `MetarData` that the embedded claims read.
`flight_category` is kept as the raw string the source casts
(`awc.fltCat || "VFR"`). -/
structure MetarData where
  icao : String
  raw : String
  observation_time : String
  visibility_sm : JSVis
  flight_category : String
  clouds : List CloudOut
  has_maintenance_flag : Bool
  deriving DecidableEq

/-- `transformMetar` restricted to the embedded fields.  `observation_time`
is taken as an input here (its value comes from a regex match on the raw
text); `c.base || 0` is the identity on our total `ℚ` bases. -/
def transformMetar (awc : AwcMetar) (observationTime : String) : MetarData :=
  { icao := awc.icaoId,
    raw := awc.rawOb.getD "",
    observation_time := observationTime,
    visibility_sm := match awc.visib with | .undef => .num 10 | v => v,
    flight_category :=
      match awc.fltCat with
      | none => "VFR"
      | some c => if c = "" then "VFR" else c,
    clouds := (awc.clouds.getD []).map (fun c => ⟨c.cover, c.base⟩),
    has_maintenance_flag := hasMaintFlag awc.rawOb }

/-- One TAF forecast period of `AwcTafResponse` (embedded fields). -/
structure AwcTafPeriod where
  visib : JSVis
  clouds : Option (List Cloud)
  deriving DecidableEq

/-- One decoded forecast period (embedded fields). -/
structure ForecastOut where
  visibility_sm : JSVis
  flight_category : FltCat
  clouds : List CloudOut
  deriving DecidableEq

/-- The `fcsts.map` of `transformTaf`: the flight category of every period is
computed by `determineFltCat` from the period's own fields. -/
def transformTafForecasts (fcsts : List AwcTafPeriod) : List ForecastOut :=
  fcsts.map (fun f =>
    { visibility_sm := match f.visib with | .undef => .num 10 | v => v,
      flight_category := determineFltCat f.visib f.clouds,
      clouds := (f.clouds.getD []).map (fun c => ⟨c.cover, c.base⟩) })

/-! ### Nationwide deduplication (src/app/api/metar/all/route.ts) -/

/-- JS `<` on strings: lexicographic comparison by character, modelled
structurally on the character lists. -/
def strLtb : List Char → List Char → Bool
  | [], [] => false
  | [], _ :: _ => true
  | _ :: _, [] => false
  | a :: as, b :: bs =>
      if a < b then true else if b < a then false else strLtb as bs

/-- One step of the dedup loop over `allMetars`: first sight inserts, a
repeat keeps the record whose `observation_time || "000000Z"` is strictly
greater. -/
def dedupStep (m : List (String × MetarData)) (x : MetarData) :
    List (String × MetarData) :=
  match alookup m x.icao with
  | none => aset m x.icao x
  | some existing =>
      let existingTime :=
        if existing.observation_time = "" then "000000Z"
        else existing.observation_time
      let newTime :=
        if x.observation_time = "" then "000000Z" else x.observation_time
      if strLtb existingTime.data newTime.data then aset m x.icao x else m

/-- The dedup loop written with an explicit accumulator. -/
def dedupGo : List MetarData → List (String × MetarData) →
    List (String × MetarData)
  | [], acc => acc
  | x :: rest, acc => dedupGo rest (dedupStep acc x)

/-- The `stationMap` built by the GET handler. -/
def dedupMetars (l : List MetarData) : List (String × MetarData) :=
  dedupGo l []

/-- The sentinel key the source compares: the Zulu string, with `"000000Z"`
substituted for an empty one. -/
def zuluKey (s : String) : String :=
  if s = "" then "000000Z" else s

/-- The claim's freshness order on Zulu strings: an empty string sorts below
every non-empty one, non-empty strings compare lexicographically. -/
def specFresher (a b : String) : Prop :=
  (a = "" ∧ b ≠ "") ∨ (a ≠ "" ∧ b ≠ "" ∧ strLtb a.data b.data = true)

/-- Pairwise merge of two records of one station, keeping the later record
exactly when its sentinel key is strictly greater. -/
def pickFresher (a b : MetarData) : MetarData :=
  if strLtb (zuluKey a.observation_time).data (zuluKey b.observation_time).data
  then b else a

/-- The record retained for station `s`: the left fold of `pickFresher` over
the station's records in fetch order. -/
def pickStation (s : String) (l : List MetarData) : Option MetarData :=
  match l.filter (fun x => decide (x.icao = s)) with
  | [] => none
  | x :: xs => some (xs.foldl pickFresher x)

/-! ## Lemmas and claim theorems -/

/-! ### C1: flight-category derivation -/

lemma omin_none (m : Option ℚ) : omin none m = m := rfl

lemma ceilingFold_eq_omin :
    ∀ (l : List Cloud) (acc : Option ℚ),
      ceilingFold l acc = omin acc (specCeiling l)
  | [], acc => by cases acc <;> rfl
  | c :: rest, acc => by
      have hq : isCeilingLayer c = specQualifies c := rfl
      cases hspec : specQualifies c with
      | false =>
          simp [ceilingFold, specCeiling, hq, hspec,
            ceilingFold_eq_omin rest acc]
      | true =>
          cases acc with
          | none =>
              simp only [ceilingFold, specCeiling, hq, hspec, beatsCeiling,
                Bool.and_true, Bool.true_and, if_true, ceilingFold_eq_omin rest]
              cases hm : specCeiling rest <;> simp [omin]
          | some a =>
              by_cases hlt : c.base < a
              · cases hm : specCeiling rest with
                | none =>
                    simp [ceilingFold, specCeiling, hq, hspec, beatsCeiling,
                      hlt, hm, ceilingFold_eq_omin rest, omin,
                      min_eq_right hlt.le]
                | some x =>
                    have h1 : min c.base x ≤ a :=
                      le_trans (min_le_left _ _) hlt.le
                    simp [ceilingFold, specCeiling, hq, hspec, beatsCeiling,
                      hlt, hm, ceilingFold_eq_omin rest, omin,
                      min_eq_right h1]
              · have hle : a ≤ c.base := not_lt.mp hlt
                cases hm : specCeiling rest with
                | none =>
                    simp [ceilingFold, specCeiling, hq, hspec, beatsCeiling,
                      hlt, hm, ceilingFold_eq_omin rest, omin,
                      min_eq_left hle]
                | some x =>
                    have h2 : min a (min c.base x) = min a x := by
                      rw [← min_assoc, min_eq_left hle]
                    simp [ceilingFold, specCeiling, hq, hspec, beatsCeiling,
                      hlt, hm, ceilingFold_eq_omin rest, omin, h2]

lemma ceilLtB_eq_specBelow (o : Option ℚ) (b : ℚ) :
    ceilLtB o b = specBelow o b := by
  cases o <;> rfl

unseal Rat.inv Rat.mul Rat.add in
/-- C1: `determineFltCat` computes exactly the specified algorithm — ceiling
is the minimum base over BKN/OVC/VV layers (+infinity when none qualify),
visibility is the supplied number or 10, then the LIFR/IFR/MVFR/VFR cascade
in order with MVFR's inclusive `≤ 5` visibility test — and it meets the six
concrete boundary cases of the claim. -/
theorem determineFltCat_correct :
    (∀ visib clouds, determineFltCat visib clouds = fltCatSpec visib clouds) ∧
    determineFltCat (.num 10) (some [⟨"BKN", 499⟩]) = .LIFR ∧
    determineFltCat (.num 10) (some [⟨"BKN", 500⟩]) = .IFR ∧
    determineFltCat (.num 10) (some [⟨"BKN", 1000⟩]) = .MVFR ∧
    determineFltCat (.num 10) (some [⟨"BKN", 3000⟩]) = .VFR ∧
    determineFltCat (.num 5) (some [⟨"BKN", 10000⟩]) = .MVFR ∧
    determineFltCat (.num (501 / 100)) (some [⟨"BKN", 10000⟩]) = .VFR := by
  refine ⟨fun visib clouds => ?_, by decide, by decide, by decide, by decide,
    by decide, by decide⟩
  simp only [determineFltCat, fltCatSpec, ceilingFold_eq_omin, omin_none,
    ceilLtB_eq_specBelow]

/-! ### Association-list lemmas -/

lemma alookup_aset_self {α : Type} (m : List (String × α)) (k : String)
    (v : α) : alookup (aset m k v) k = some v := by
  induction m with
  | nil => simp [aset, alookup]
  | cons p rest ih =>
      by_cases h : p.1 = k
      · simp [aset, alookup, h]
      · simp [aset, alookup, h, ih]

lemma alookup_aset_ne {α : Type} (m : List (String × α)) (k k' : String)
    (v : α) (h : k' ≠ k) : alookup (aset m k v) k' = alookup m k' := by
  induction m with
  | nil => simp [aset, alookup, fun hh => h hh.symm ∘ Eq.symm, Ne.symm h]
  | cons p rest ih =>
      by_cases hp : p.1 = k
      · subst hp
        simp [aset, alookup, Ne.symm h]
      · simp [aset, alookup, hp, ih]

lemma trimLog_eq_self (log : List OutageEvent) (h : log.length ≤ 1000) :
    trimLog log = log := by
  simp [trimLog]
  omega

/-! ### C3: first sight of a flagged station -/

/-- C3 counterexample: on an empty ledger (station never seen), one update
with the flag set immediately appends an open OutageEvent — the claim's "no
OutageEvent is created" is false at this input. -/
theorem firstSight_creates_event :
    (processBatch 0 emptyData [⟨"KXXX", "Station", true, 1000, "010000Z"⟩]).outageLog
      = [⟨"KXXX", "Station", 1000, "010000Z", none, none, none⟩] := by
  decide

/-- C3 (amended): for a station with no stored ledger status, an update with
flag true registers the station as down AND opens an OutageEvent at once,
because the absent status defaults to "up" (`?? false`) and the transition
logic fires on that change. -/
theorem firstSight_amended (now t : ℤ) (d : MaintenanceData)
    (s name z : String) (hnone : alookup d.stationStatus s = none)
    (hlen : d.outageLog.length < 1000) :
    (processBatch now d [⟨s, name, true, t, z⟩]).outageLog
      = d.outageLog ++ [⟨s, name, t, z, none, none, none⟩] ∧
    flagOf (processBatch now d [⟨s, name, true, t, z⟩]) s = true := by
  have h1 : (processUpdate now d ⟨s, name, true, t, z⟩).outageLog
      = d.outageLog ++ [⟨s, name, t, z, none, none, none⟩] := by
    simp [processUpdate, hnone, openEvent]
  constructor
  · show trimLog (processUpdate now d ⟨s, name, true, t, z⟩).outageLog = _
    rw [h1, trimLog_eq_self]
    simp
    omega
  · show flagOf ⟨(processUpdate now d ⟨s, name, true, t, z⟩).stationStatus, _⟩ s
        = true
    simp [flagOf, processUpdate, alookup_aset_self]

/-- C3 witness: the amended statement evaluated on the empty ledger. -/
theorem firstSight_amended_witness :
    (processBatch 0 emptyData [⟨"KXXX", "S", true, 1000, "z"⟩]).outageLog
      = [⟨"KXXX", "S", 1000, "z", none, none, none⟩] ∧
    flagOf (processBatch 0 emptyData [⟨"KXXX", "S", true, 1000, "z"⟩]) "KXXX"
      = true := by
  have h := firstSight_amended 0 1000 emptyData "KXXX" "S" "z" rfl (by decide)
  simpa using h

/-! ### C7: outage-log retention cap -/

/-- C7: after any POST batch on any ledger, the outage log holds at most 1000
events; the kept log is a suffix of the processed log (drops are oldest
first, relative order preserved) and its length is the minimum of the
processed length and 1000. -/
theorem outage_log_cap (now : ℤ) (d : MaintenanceData)
    (us : List MaintUpdate) :
    (processBatch now d us).outageLog.length ≤ 1000 ∧
    (processBatch now d us).outageLog.length
      = min (us.foldl (processUpdate now) d).outageLog.length 1000 ∧
    (processBatch now d us).outageLog.IsSuffix
      (us.foldl (processUpdate now) d).outageLog := by
  have hlog : (processBatch now d us).outageLog
      = trimLog (us.foldl (processUpdate now) d).outageLog := rfl
  rw [hlog]
  by_cases h : (us.foldl (processUpdate now) d).outageLog.length > 1000
  · rw [trimLog, if_pos h]
    refine ⟨?_, ?_, List.drop_suffix _ _⟩ <;> simp [List.length_drop] <;> omega
  · rw [trimLog, if_neg h]
    refine ⟨by omega, by omega, List.suffix_refl _⟩

/-! ### C2: one outage cycle over three update calls -/

lemma map_closeEvent_id (log : List OutageEvent) (s : String) (ot : ℤ)
    (oz : String) (h : ∀ e ∈ log, e.icao = s → e.endTime ≠ none) :
    log.map (closeEvent s ot oz) = log := by
  induction log with
  | nil => rfl
  | cons e rest ih =>
      have he : closeEvent s ot oz e = e := by
        have : ¬(e.icao = s ∧ e.endTime = none) := by
          intro hc
          exact h e (by simp) hc.1 hc.2
        simp [closeEvent, this]
      simp only [List.map_cons, he]
      rw [ih (fun e' he' => h e' (by simp [he']))]

lemma ite_pos_eq_max (z : ℤ) : (if z > 0 then z else 0) = max 0 z := by
  by_cases h : z > 0
  · rw [if_pos h, max_eq_right h.le]
  · rw [if_neg h, max_eq_left (by omega)]

/-- C2: starting from a ledger where station `s` is stored up (flag false,
no open events), the flag samples true, true, false over three successive
POST calls append exactly one OutageEvent: opened by the first true with the
observation's own time fields (the wall clocks `n1 n2 n3` are arbitrary and
do not appear), untouched by the repeated true, and closed by the false with
that observation's fields and duration `max 0 (round((end - start)/60000))`. -/
theorem outage_cycle (n1 n2 n3 t1 t2 t3 : ℤ) (d : MaintenanceData)
    (s name1 name2 name3 z1 z2 z3 : String) (st : StationStatus)
    (hst : alookup d.stationStatus s = some st) (hflag : st.hasFlag = false)
    (hopen : ∀ e ∈ d.outageLog, e.icao = s → e.endTime ≠ none)
    (hlen : d.outageLog.length < 1000) :
    (processBatch n1 d [⟨s, name1, true, t1, z1⟩]).outageLog
      = d.outageLog ++ [openEvent ⟨s, name1, true, t1, z1⟩] ∧
    (processBatch n2 (processBatch n1 d [⟨s, name1, true, t1, z1⟩])
        [⟨s, name2, true, t2, z2⟩]).outageLog
      = (processBatch n1 d [⟨s, name1, true, t1, z1⟩]).outageLog ∧
    (processBatch n3 (processBatch n2
          (processBatch n1 d [⟨s, name1, true, t1, z1⟩])
          [⟨s, name2, true, t2, z2⟩]) [⟨s, name3, false, t3, z3⟩]).outageLog
      = d.outageLog ++
        [{ icao := s, stationName := name1, startTime := t1,
           startTimeZulu := z1, endTime := some t3, endTimeZulu := some z3,
           duration := some (max 0 (jsRound (((t3 - t1 : ℤ) : ℚ) / 60000))) }] := by
  have hPU1log : (processUpdate n1 d ⟨s, name1, true, t1, z1⟩).outageLog
      = d.outageLog ++ [openEvent ⟨s, name1, true, t1, z1⟩] := by
    simp [processUpdate, hst, hflag]
  have hlen1 : (d.outageLog ++ [openEvent ⟨s, name1, true, t1, z1⟩]).length
      ≤ 1000 := by
    simp
    omega
  have hd1log : (processBatch n1 d [⟨s, name1, true, t1, z1⟩]).outageLog
      = d.outageLog ++ [openEvent ⟨s, name1, true, t1, z1⟩] := by
    show trimLog (processUpdate n1 d ⟨s, name1, true, t1, z1⟩).outageLog = _
    rw [hPU1log, trimLog_eq_self _ hlen1]
  have hd1st : (processBatch n1 d [⟨s, name1, true, t1, z1⟩]).stationStatus
      = aset d.stationStatus s ⟨true, n1, t1, z1, name1⟩ := rfl
  have hlook1 :
      alookup (processBatch n1 d [⟨s, name1, true, t1, z1⟩]).stationStatus s
        = some ⟨true, n1, t1, z1, name1⟩ := by
    rw [hd1st]
    exact alookup_aset_self _ _ _
  have hPU2log : (processUpdate n2 (processBatch n1 d [⟨s, name1, true, t1, z1⟩])
        ⟨s, name2, true, t2, z2⟩).outageLog
      = (processBatch n1 d [⟨s, name1, true, t1, z1⟩]).outageLog := by
    simp [processUpdate, hlook1]
  have hd2log : (processBatch n2 (processBatch n1 d [⟨s, name1, true, t1, z1⟩])
        [⟨s, name2, true, t2, z2⟩]).outageLog
      = (processBatch n1 d [⟨s, name1, true, t1, z1⟩]).outageLog := by
    show trimLog (processUpdate n2 _ ⟨s, name2, true, t2, z2⟩).outageLog = _
    rw [hPU2log, trimLog_eq_self]
    rw [hd1log]
    exact hlen1
  have hd2st : (processBatch n2 (processBatch n1 d [⟨s, name1, true, t1, z1⟩])
        [⟨s, name2, true, t2, z2⟩]).stationStatus
      = aset (processBatch n1 d [⟨s, name1, true, t1, z1⟩]).stationStatus s
          ⟨true, n2, t2, z2, name2⟩ := rfl
  have hlook2 :
      alookup (processBatch n2 (processBatch n1 d [⟨s, name1, true, t1, z1⟩])
          [⟨s, name2, true, t2, z2⟩]).stationStatus s
        = some ⟨true, n2, t2, z2, name2⟩ := by
    rw [hd2st]
    exact alookup_aset_self _ _ _
  have hPU3log : (processUpdate n3
        (processBatch n2 (processBatch n1 d [⟨s, name1, true, t1, z1⟩])
          [⟨s, name2, true, t2, z2⟩]) ⟨s, name3, false, t3, z3⟩).outageLog
      = ((processBatch n2 (processBatch n1 d [⟨s, name1, true, t1, z1⟩])
          [⟨s, name2, true, t2, z2⟩]).outageLog).map (closeEvent s t3 z3) := by
    simp [processUpdate, hlook2]
  have hclose : closeEvent s t3 z3 (openEvent ⟨s, name1, true, t1, z1⟩)
      = { icao := s, stationName := name1, startTime := t1,
          startTimeZulu := z1, endTime := some t3, endTimeZulu := some z3,
          duration := some (max 0 (jsRound (((t3 - t1 : ℤ) : ℚ) / 60000))) } := by
    simp [closeEvent, openEvent, ite_pos_eq_max]
  have hmap : (d.outageLog ++ [openEvent ⟨s, name1, true, t1, z1⟩]).map
        (closeEvent s t3 z3)
      = d.outageLog ++
        [{ icao := s, stationName := name1, startTime := t1,
           startTimeZulu := z1, endTime := some t3, endTimeZulu := some z3,
           duration := some (max 0 (jsRound (((t3 - t1 : ℤ) : ℚ) / 60000))) }] := by
    rw [List.map_append, map_closeEvent_id _ _ _ _ hopen]
    simp [hclose]
  refine ⟨hd1log, hd2log, ?_⟩
  show trimLog (processUpdate n3 _ ⟨s, name3, false, t3, z3⟩).outageLog = _
  rw [hPU3log, hd2log, hd1log, hmap, trimLog_eq_self]
  simp
  omega

unseal Rat.inv Rat.mul Rat.add in
/-- C2 witness: the cycle run concretely — one event, start 0/"z1", end
120000/"z3", duration 2 minutes. -/
theorem outage_cycle_witness :
    (processBatch 3 (processBatch 2 (processBatch 1
        ⟨[("KXXX", ⟨false, 0, 0, "", "X"⟩)], []⟩
        [⟨"KXXX", "X", true, 0, "z1"⟩]) [⟨"KXXX", "X", true, 60000, "z2"⟩])
      [⟨"KXXX", "X", false, 120000, "z3"⟩]).outageLog
      = [⟨"KXXX", "X", 0, "z1", some 120000, some "z3", some 2⟩] := by
  have h := outage_cycle 1 2 3 0 60000 120000
      ⟨[("KXXX", ⟨false, 0, 0, "", "X"⟩)], []⟩ "KXXX" "X" "X" "X" "z1" "z2"
      "z3" ⟨false, 0, 0, "", "X"⟩ (by decide) rfl (by simp) (by decide)
  rw [h.2.2]
  decide

/-! ### C4: at most one open event per station -/

lemma flagOf_after (d : MaintenanceData) (now : ℤ) (u : MaintUpdate)
    (s : String) :
    flagOf (processUpdate now d u) s
      = if s = u.icao then u.hasFlag else flagOf d s := by
  by_cases hts : s = u.icao
  · subst hts
    simp [flagOf, processUpdate, alookup_aset_self]
  · simp only [flagOf, processUpdate, alookup_aset_ne _ _ _ _ hts, if_neg hts]

lemma isOpenFor_closeEvent_self (t : String) (ot : ℤ) (oz : String)
    (e : OutageEvent) : isOpenFor t (closeEvent t ot oz e) = false := by
  by_cases hc : e.icao = t ∧ e.endTime = none
  · rw [closeEvent, if_pos hc]
    simp [isOpenFor]
  · rw [closeEvent, if_neg hc]
    simp only [isOpenFor]
    simpa using hc

lemma isOpenFor_closeEvent_ne (s t : String) (hne : s ≠ t) (ot : ℤ)
    (oz : String) (e : OutageEvent) :
    isOpenFor s (closeEvent t ot oz e) = isOpenFor s e := by
  by_cases hc : e.icao = t ∧ e.endTime = none
  · rw [closeEvent, if_pos hc]
    simp [isOpenFor, hc.1, hc.2, Ne.symm hne]
  · rw [closeEvent, if_neg hc]

lemma openCount_map_close_self (t : String) (ot : ℤ) (oz : String) :
    ∀ log : List OutageEvent, openCount t (log.map (closeEvent t ot oz)) = 0
  | [] => rfl
  | e :: rest => by
      simp only [List.map_cons, openCount, List.countP_cons]
      rw [isOpenFor_closeEvent_self t ot oz e]
      have h := openCount_map_close_self t ot oz rest
      simp only [openCount] at h
      simp [h]

lemma openCount_map_close_ne (s t : String) (hne : s ≠ t) (ot : ℤ)
    (oz : String) :
    ∀ log : List OutageEvent,
      openCount s (log.map (closeEvent t ot oz)) = openCount s log
  | [] => rfl
  | e :: rest => by
      simp only [List.map_cons, openCount, List.countP_cons]
      rw [isOpenFor_closeEvent_ne s t hne ot oz e]
      have h := openCount_map_close_ne s t hne ot oz rest
      simp only [openCount] at h
      rw [h]

lemma openCount_append (s : String) (l1 l2 : List OutageEvent) :
    openCount s (l1 ++ l2) = openCount s l1 + openCount s l2 := by
  simp [openCount, List.countP_append]

lemma openCount_single_open (s : String) (u : MaintUpdate) :
    openCount s [openEvent u] = if u.icao = s then 1 else 0 := by
  simp [openCount, List.countP_cons, isOpenFor, openEvent]

lemma inv_processUpdate (now : ℤ) (u : MaintUpdate) (d : MaintenanceData)
    (h : LedgerInv d) : LedgerInv (processUpdate now d u) := by
  intro s
  have hflag := flagOf_after d now u s
  cases hw : flagOf d u.icao with
  | false =>
      have hw' : (match alookup d.stationStatus u.icao with
        | some st => st.hasFlag
        | none => false) = false := hw
      cases hu : u.hasFlag with
      | true =>
          have hlog : (processUpdate now d u).outageLog
              = d.outageLog ++ [openEvent u] := by
            simp [processUpdate, hw', hu]
          by_cases hts : s = u.icao
          · have h0 : openCount s d.outageLog = 0 :=
              (h s).2 (by rw [hts]; exact hw)
            rw [hlog, openCount_append, openCount_single_open, h0,
              if_pos hts.symm]
            refine ⟨by simp, fun hc => ?_⟩
            rw [hflag, if_pos hts, hu] at hc
            exact absurd hc (by simp)
          · rw [hlog, openCount_append, openCount_single_open,
              if_neg (fun hh => hts hh.symm)]
            rw [hflag, if_neg hts]
            simpa using h s
      | false =>
          have hlog : (processUpdate now d u).outageLog = d.outageLog := by
            simp [processUpdate, hw', hu]
          rw [hlog, hflag]
          by_cases hts : s = u.icao
          · rw [if_pos hts, hu]
            exact ⟨(h s).1, fun _ => (h s).2 (by rw [hts]; exact hw)⟩
          · rw [if_neg hts]
            exact h s
  | true =>
      have hw' : (match alookup d.stationStatus u.icao with
        | some st => st.hasFlag
        | none => false) = true := hw
      cases hu : u.hasFlag with
      | true =>
          have hlog : (processUpdate now d u).outageLog = d.outageLog := by
            simp [processUpdate, hw', hu]
          rw [hlog, hflag]
          by_cases hts : s = u.icao
          · rw [if_pos hts, hu]
            exact ⟨(h s).1, fun hc => absurd hc (by simp)⟩
          · rw [if_neg hts]
            exact h s
      | false =>
          have hlog : (processUpdate now d u).outageLog
              = d.outageLog.map (closeEvent u.icao u.obsTime u.observationTime) := by
            simp [processUpdate, hw', hu]
          rw [hlog, hflag]
          by_cases hts : s = u.icao
          · rw [if_pos hts, hu, hts, openCount_map_close_self]
            exact ⟨by omega, fun _ => rfl⟩
          · rw [openCount_map_close_ne s u.icao hts, if_neg hts]
            exact h s

lemma openCount_trimLog_le (s : String) (log : List OutageEvent) :
    openCount s (trimLog log) ≤ openCount s log := by
  rw [trimLog]
  by_cases h : log.length > 1000
  · rw [if_pos h]
    exact List.Sublist.countP_le _ (List.drop_sublist _ _)
  · rw [if_neg h]

lemma inv_processBatch (now : ℤ) (d : MaintenanceData) (us : List MaintUpdate)
    (h : LedgerInv d) : LedgerInv (processBatch now d us) := by
  have hfold : LedgerInv (us.foldl (processUpdate now) d) := by
    induction us generalizing d with
    | nil => exact h
    | cons u rest ih => exact ih _ (inv_processUpdate now u d h)
  intro s
  have hs := hfold s
  have hle : openCount s (processBatch now d us).outageLog
      ≤ openCount s (us.foldl (processUpdate now) d).outageLog :=
    openCount_trimLog_le s _
  refine ⟨le_trans hle hs.1, fun hf => ?_⟩
  have h0 := hs.2 hf
  omega

lemma reachable_inv (d : MaintenanceData) (hd : Reachable d) : LedgerInv d := by
  induction hd with
  | empty => exact fun s => ⟨by simp [emptyData, openCount], fun _ => rfl⟩
  | batch now us hrd ih => exact inv_processBatch now _ us ih

/-- C4: in every ledger state reachable from the empty ledger by POST update
batches, each station has at most one OutageEvent with null endTime. -/
theorem open_event_unique (d : MaintenanceData) (hd : Reachable d)
    (s : String) : openCount s d.outageLog ≤ 1 :=
  (reachable_inv d hd s).1

/-- C4 witness: the invariant evaluated on a concrete reachable state (one
batch putting station KXXX down). -/
theorem open_event_unique_witness :
    openCount "KXXX"
      (processBatch 0 emptyData [⟨"KXXX", "S", true, 5, "z"⟩]).outageLog ≤ 1 :=
  open_event_unique _ (Reachable.batch 0 _ Reachable.empty) "KXXX"

/-! ### C5: station statistics -/

lemma updStats_icao (st : StationStats) (e : OutageEvent) :
    (updStats st e).icao = st.icao := by
  unfold updStats
  cases e.duration <;> cases e.endTime <;> cases st.firstOutage <;>
    simp <;> split <;> rfl

lemma updStats_name (st : StationStats) (e : OutageEvent) :
    (updStats st e).stationName = st.stationName := by
  unfold updStats
  cases e.duration <;> cases e.endTime <;> cases st.firstOutage <;>
    simp <;> split <;> rfl

lemma updStats_total (st : StationStats) (e : OutageEvent) :
    (updStats st e).totalOutages = st.totalOutages + 1 := by
  unfold updStats
  cases e.duration <;> cases e.endTime <;> cases st.firstOutage <;>
    simp <;> split <;> rfl

lemma updStats_down (st : StationStats) (e : OutageEvent) :
    (updStats st e).totalDowntimeMinutes
      = st.totalDowntimeMinutes + e.duration.getD 0 := by
  unfold updStats
  cases e.duration <;> cases e.endTime <;> cases st.firstOutage <;>
    simp <;> split <;> rfl

lemma updStats_avg (st : StationStats) (e : OutageEvent) :
    (updStats st e).averageDowntimeMinutes = st.averageDowntimeMinutes := by
  unfold updStats
  cases e.duration <;> cases e.endTime <;> cases st.firstOutage <;>
    simp <;> split <;> rfl

lemma updStats_longest (st : StationStats) (e : OutageEvent) :
    (updStats st e).longestOutageMinutes
      = match e.duration with
        | some dur => max st.longestOutageMinutes dur
        | none => st.longestOutageMinutes := by
  unfold updStats
  cases e.duration <;> cases e.endTime <;> cases st.firstOutage <;>
    simp <;> split <;> rfl

lemma updStats_first (st : StationStats) (e : OutageEvent) (f : ℤ)
    (hf : st.firstOutage = some f) :
    (updStats st e).firstOutage = some (min f e.startTime) := by
  have hmin : (if e.startTime < f then e.startTime else f)
      = min f e.startTime := by
    by_cases hlt : e.startTime < f
    · rw [if_pos hlt, min_eq_right hlt.le]
    · rw [if_neg hlt, min_eq_left (not_lt.mp hlt)]
  unfold updStats
  cases e.duration <;> cases e.endTime <;> simp [hf] <;> split <;>
    rename_i hlt
  all_goals
    first
      | simp [min_eq_right hlt.le]
      | simp [min_eq_left (not_lt.mp hlt)]

lemma updStats_last (st : StationStats) (e : OutageEvent) :
    (updStats st e).lastOutage = some e.startTime := by
  unfold updStats
  cases e.duration <;> cases e.endTime <;> cases st.firstOutage <;>
    simp <;> split <;> rfl

lemma foldStats_icao (es : List OutageEvent) :
    ∀ st : StationStats, (es.foldl updStats st).icao = st.icao := by
  induction es with
  | nil => intro st; rfl
  | cons e rest ih =>
      intro st
      rw [List.foldl_cons, ih, updStats_icao]

lemma foldStats_name (es : List OutageEvent) :
    ∀ st : StationStats, (es.foldl updStats st).stationName = st.stationName := by
  induction es with
  | nil => intro st; rfl
  | cons e rest ih =>
      intro st
      rw [List.foldl_cons, ih, updStats_name]

lemma foldStats_total (es : List OutageEvent) :
    ∀ st : StationStats,
      (es.foldl updStats st).totalOutages = st.totalOutages + es.length := by
  induction es with
  | nil => intro st; simp
  | cons e rest ih =>
      intro st
      rw [List.foldl_cons, ih, updStats_total]
      simp
      omega

lemma foldStats_down (es : List OutageEvent) :
    ∀ st : StationStats,
      (es.foldl updStats st).totalDowntimeMinutes
        = st.totalDowntimeMinutes
          + (es.filterMap (fun e => e.duration)).sum := by
  induction es with
  | nil => intro st; simp
  | cons e rest ih =>
      intro st
      rw [List.foldl_cons, ih, updStats_down]
      cases hd : e.duration with
      | none => simp [List.filterMap_cons, hd]
      | some dur =>
          simp [List.filterMap_cons, hd]
          omega

lemma foldStats_avg (es : List OutageEvent) :
    ∀ st : StationStats,
      (es.foldl updStats st).averageDowntimeMinutes
        = st.averageDowntimeMinutes := by
  induction es with
  | nil => intro st; rfl
  | cons e rest ih =>
      intro st
      rw [List.foldl_cons, ih, updStats_avg]

lemma foldStats_longest (es : List OutageEvent) :
    ∀ st : StationStats,
      (es.foldl updStats st).longestOutageMinutes
        = (es.filterMap (fun e => e.duration)).foldl max
            st.longestOutageMinutes := by
  induction es with
  | nil => intro st; rfl
  | cons e rest ih =>
      intro st
      rw [List.foldl_cons, ih, updStats_longest]
      cases hd : e.duration with
      | none => simp [List.filterMap_cons, hd]
      | some dur => simp [List.filterMap_cons, hd]

lemma foldStats_first (es : List OutageEvent) :
    ∀ (st : StationStats) (f : ℤ), st.firstOutage = some f →
      (es.foldl updStats st).firstOutage
        = some ((es.map (fun e => e.startTime)).foldl min f) := by
  induction es with
  | nil => intro st f hf; simpa using hf
  | cons e rest ih =>
      intro st f hf
      rw [List.foldl_cons, ih (updStats st e) (min f e.startTime)
        (updStats_first st e f hf)]
      simp

lemma getLast?_cons_or (xs : List ℤ) :
    ∀ (a : ℤ) (w : Option ℤ),
      ((a :: xs).getLast?).or w = (xs.getLast?).or (some a) := by
  induction xs with
  | nil => intro a w; rfl
  | cons y ys ih =>
      intro a w
      rw [List.getLast?_cons_cons, ih y w, ih y (some a)]

lemma foldStats_last (es : List OutageEvent) :
    ∀ st : StationStats,
      (es.foldl updStats st).lastOutage
        = ((es.map (fun e => e.startTime)).getLast?).or st.lastOutage := by
  induction es with
  | nil => intro st; rfl
  | cons e rest ih =>
      intro st
      rw [List.foldl_cons, ih (updStats st e), updStats_last,
        List.map_cons, getLast?_cons_or]

lemma stationEvents_cons_self (s : String) (e : OutageEvent)
    (rest : List OutageEvent) (h : e.icao = s) :
    stationEvents s (e :: rest) = e :: stationEvents s rest := by
  simp [stationEvents, List.filter_cons, h]

lemma stationEvents_cons_ne (s : String) (e : OutageEvent)
    (rest : List OutageEvent) (h : ¬e.icao = s) :
    stationEvents s (e :: rest) = stationEvents s rest := by
  simp [stationEvents, List.filter_cons, h]

lemma perStation_cons_ne (s : String) (e : OutageEvent)
    (rest : List OutageEvent) (h : ¬e.icao = s) :
    perStation s (e :: rest) = perStation s rest := by
  unfold perStation
  rw [stationEvents_cons_ne s e rest h]

lemma alookup_statsFold :
    ∀ (log : List OutageEvent) (acc : List (String × StationStats))
      (s : String),
      alookup (statsFold log acc) s =
        match alookup acc s with
        | some st => some ((stationEvents s log).foldl updStats st)
        | none => perStation s log
  | [], acc, s => by
      cases h : alookup acc s <;>
        simp [statsFold, h, stationEvents, perStation]
  | e :: rest, acc, s => by
      by_cases hse : e.icao = s
      · subst hse
        cases hacc : alookup acc e.icao with
        | some st =>
            simp only [statsFold, hacc]
            rw [alookup_statsFold rest _ e.icao, alookup_aset_self]
            rw [stationEvents_cons_self e.icao e rest rfl]
            simp [List.foldl_cons]
        | none =>
            simp only [statsFold, hacc]
            rw [alookup_statsFold rest _ e.icao, alookup_aset_self]
            unfold perStation
            rw [stationEvents_cons_self e.icao e rest rfl]
      · have hne : s ≠ e.icao := fun hh => hse hh.symm
        cases hacc : alookup acc e.icao with
        | some st =>
            simp only [statsFold, hacc]
            rw [alookup_statsFold rest _ s, alookup_aset_ne _ _ _ _ hne]
            rw [stationEvents_cons_ne s e rest hse,
              perStation_cons_ne s e rest hse]
        | none =>
            simp only [statsFold, hacc]
            rw [alookup_statsFold rest _ s, alookup_aset_ne _ _ _ _ hne]
            rw [stationEvents_cons_ne s e rest hse,
              perStation_cons_ne s e rest hse]

lemma statsForStation_eq (log : List OutageEvent) (s : String) :
    statsForStation log s = (perStation s log).map (fixAvg log) := by
  unfold statsForStation
  rw [alookup_statsFold log [] s]
  rfl

lemma fixAvg_icao (log : List OutageEvent) (st : StationStats) :
    (fixAvg log st).icao = st.icao := by
  unfold fixAvg
  dsimp only
  split <;> rfl

lemma fixAvg_totalOutages (log : List OutageEvent) (st : StationStats) :
    (fixAvg log st).totalOutages = st.totalOutages := by
  unfold fixAvg
  dsimp only
  split <;> rfl

lemma fixAvg_down (log : List OutageEvent) (st : StationStats) :
    (fixAvg log st).totalDowntimeMinutes = st.totalDowntimeMinutes := by
  unfold fixAvg
  dsimp only
  split <;> rfl

lemma fixAvg_longest (log : List OutageEvent) (st : StationStats) :
    (fixAvg log st).longestOutageMinutes = st.longestOutageMinutes := by
  unfold fixAvg
  dsimp only
  split <;> rfl

lemma fixAvg_first (log : List OutageEvent) (st : StationStats) :
    (fixAvg log st).firstOutage = st.firstOutage := by
  unfold fixAvg
  dsimp only
  split <;> rfl

lemma fixAvg_last (log : List OutageEvent) (st : StationStats) :
    (fixAvg log st).lastOutage = st.lastOutage := by
  unfold fixAvg
  dsimp only
  split <;> rfl

lemma fixAvg_avg (log : List OutageEvent) (st : StationStats) :
    (fixAvg log st).averageDowntimeMinutes =
      if (log.filter
            (fun e => decide (e.icao = st.icao ∧ e.duration ≠ none))).length > 0
      then jsRound ((st.totalDowntimeMinutes : ℚ)
        / (((log.filter
              (fun e => decide (e.icao = st.icao ∧ e.duration ≠ none))).length : ℚ)))
      else st.averageDowntimeMinutes := by
  unfold fixAvg
  dsimp only
  split <;> rfl

lemma length_filter_closed :
    ∀ es : List OutageEvent,
      (es.filter (fun e => decide (e.duration ≠ none))).length
        = (es.filterMap (fun e => e.duration)).length
  | [] => rfl
  | e :: rest => by
      have ih := length_filter_closed rest
      cases hd : e.duration with
      | none =>
          simp [List.filter_cons, List.filterMap_cons, hd]
          simpa using ih
      | some dur =>
          simp [List.filter_cons, List.filterMap_cons, hd]
          simpa using ih

lemma completed_eq (log : List OutageEvent) (s : String) :
    (log.filter (fun e => decide (e.icao = s ∧ e.duration ≠ none))).length
      = (closedDurations s log).length := by
  have hfun : (fun (e : OutageEvent) => decide (e.icao = s ∧ e.duration ≠ none))
      = fun e => decide (e.duration ≠ none) && decide (e.icao = s) := by
    funext e
    by_cases hp : e.icao = s <;> by_cases hq : e.duration ≠ none <;>
      simp [hp, hq]
  have h1 : log.filter (fun e => decide (e.icao = s ∧ e.duration ≠ none))
      = (stationEvents s log).filter (fun e => decide (e.duration ≠ none)) := by
    rw [stationEvents, List.filter_filter, hfun]
  rw [h1, closedDurations, length_filter_closed]

lemma foldl_max_exchange (l : List ℤ) :
    ∀ a b : ℤ, l.foldl max (max a b) = max a (l.foldl max b) := by
  induction l with
  | nil => intro a b; rfl
  | cons c t ih =>
      intro a b
      rw [List.foldl_cons, max_assoc, ih a (max b c), List.foldl_cons]

lemma foldl_max_nonneg :
    ∀ l : List ℤ, (∀ x ∈ l, (0:ℤ) ≤ x) →
      l.foldl max 0 = (maxOfList l).getD 0
  | [], _ => rfl
  | x :: xs, h => by
      have h0x : (0:ℤ) ≤ x := h x (by simp)
      have hseed : xs.foldl max x = max x (xs.foldl max 0) := by
        conv_lhs => rw [show x = max x 0 from (max_eq_left h0x).symm]
        exact foldl_max_exchange xs x 0
      rw [List.foldl_cons, max_comm 0 x, foldl_max_exchange xs x 0]
      simp [maxOfList, hseed]

lemma alookup_mem {α : Type} (m : List (String × α)) (s : String) (v : α)
    (h : alookup m s = some v) : (s, v) ∈ m := by
  induction m with
  | nil => simp [alookup] at h
  | cons p rest ih =>
      obtain ⟨k', v'⟩ := p
      by_cases hk : k' = s
      · simp only [alookup, if_pos hk] at h
        subst hk
        simp at h
        simp [h]
      · simp only [alookup, if_neg hk] at h
        exact List.mem_cons_of_mem _ (ih h)

/-- C5 (amended): the statistics derivation is a pure function of the outage
log satisfying, per station: totalOutages = number of events;
totalDowntimeMinutes = sum of the non-null durations; averageDowntimeMinutes
= round(total / closed count), or 0 when no event is closed;
longestOutageMinutes = maximum closed duration, or 0 (durations are
non-negative); firstOutage = minimum startTime; and lastOutage = the
startTime of the station's last event in log order — not the maximum
startTime, which is where the claim fails.  Every per-station record appears
in the derivation's output list. -/
theorem station_stats_spec :
    (∀ (log : List OutageEvent) (s : String) (st : StationStats),
        statsForStation log s = some st →
        (∀ e ∈ log, (0:ℤ) ≤ e.duration.getD 0) →
        st.icao = s ∧
        st.totalOutages = (stationEvents s log).length ∧
        st.totalDowntimeMinutes = (closedDurations s log).sum ∧
        st.averageDowntimeMinutes =
          (if (closedDurations s log).length > 0
           then jsRound (((closedDurations s log).sum : ℚ)
             / ((closedDurations s log).length : ℚ))
           else 0) ∧
        st.longestOutageMinutes = (maxOfList (closedDurations s log)).getD 0 ∧
        st.firstOutage
          = minOfList ((stationEvents s log).map (fun e => e.startTime)) ∧
        st.lastOutage
          = ((stationEvents s log).map (fun e => e.startTime)).getLast?) ∧
    (∀ (log : List OutageEvent) (s : String) (st : StationStats),
        statsForStation log s = some st → st ∈ getStationStats log) := by
  constructor
  · intro log s st hst hnn
    rw [statsForStation_eq] at hst
    cases hps : perStation s log with
    | none =>
        rw [hps] at hst
        simp at hst
    | some st0 =>
        rw [hps] at hst
        simp at hst
        subst hst
        unfold perStation at hps
        cases hes : stationEvents s log with
        | nil =>
            rw [hes] at hps
            simp at hps
        | cons e0 evs =>
            rw [hes] at hps
            simp at hps
            have hst0 : st0 = (e0 :: evs).foldl updStats (initStats e0) := by
              rw [List.foldl_cons]
              exact hps.symm
            have he0 : e0.icao = s := by
              have hmem : e0 ∈ stationEvents s log := by
                rw [hes]
                exact List.mem_cons_self _ _
              unfold stationEvents at hmem
              simpa using (List.mem_filter.mp hmem).2
            have hicao0 : st0.icao = s := by
              rw [hst0, foldStats_icao]
              simpa [initStats] using he0
            have htotal0 : st0.totalOutages = (e0 :: evs).length := by
              rw [hst0, foldStats_total]
              simp [initStats]
            have hdown0 : st0.totalDowntimeMinutes
                = ((e0 :: evs).filterMap (fun e => e.duration)).sum := by
              rw [hst0, foldStats_down]
              simp [initStats]
            have havg0 : st0.averageDowntimeMinutes = 0 := by
              rw [hst0, foldStats_avg]
              rfl
            have hlong0 : st0.longestOutageMinutes
                = ((e0 :: evs).filterMap (fun e => e.duration)).foldl max 0 := by
              rw [hst0, foldStats_longest]
              rfl
            have hfirst0 : st0.firstOutage
                = some (((e0 :: evs).map (fun e => e.startTime)).foldl min
                    e0.startTime) := by
              rw [hst0]
              exact foldStats_first _ _ _ rfl
            have hlast0 : st0.lastOutage
                = ((e0 :: evs).map (fun e => e.startTime)).getLast? := by
              rw [hst0, foldStats_last]
              simp [initStats]
            have hcd : closedDurations s log
                = (e0 :: evs).filterMap (fun e => e.duration) := by
              rw [closedDurations, hes]
            have hnncd : ∀ x ∈ closedDurations s log, (0:ℤ) ≤ x := by
              intro x hx
              rw [closedDurations] at hx
              obtain ⟨e, hemem, hdur⟩ := List.mem_filterMap.mp hx
              have helog : e ∈ log := by
                unfold stationEvents at hemem
                exact (List.mem_filter.mp hemem).1
              have hh := hnn e helog
              rw [hdur] at hh
              simpa using hh
            refine ⟨by rw [fixAvg_icao]; exact hicao0, ?_, ?_, ?_, ?_, ?_, ?_⟩
            · rw [fixAvg_totalOutages, htotal0]
            · rw [fixAvg_down, hdown0, hcd]
            · rw [fixAvg_avg, hicao0, completed_eq, hdown0, ← hcd, havg0]
            · rw [fixAvg_longest, hlong0, ← hcd]
              exact foldl_max_nonneg _ hnncd
            · rw [fixAvg_first, hfirst0]
              simp [minOfList, List.map_cons, List.foldl_cons, min_self]
            · rw [fixAvg_last, hlast0]
  · intro log s st hst
    unfold statsForStation at hst
    cases hl : alookup (statsFold log []) s with
    | none =>
        rw [hl] at hst
        simp at hst
    | some st0 =>
        rw [hl] at hst
        simp at hst
        subst hst
        have hmem : (s, st0) ∈ statsFold log [] := alookup_mem _ _ _ hl
        exact List.mem_map_of_mem _ hmem

unseal Rat.inv Rat.mul Rat.add in
/-- C5 counterexample: with a station's two events stored with start times
100 then 50 in log order, the derived lastOutage is 50 (the last event in
log order) while the maximum startTime over the station's events is 100 —
the claim's "lastOutageEpochMs = maximum startTime" is false at this log. -/
theorem station_stats_lastOutage_cx :
    (statsForStation
        [⟨"KXXX", "X", 100, "a", some 130, some "b", some 30⟩,
         ⟨"KXXX", "X", 50, "c", some 140, some "d", some 90⟩] "KXXX").map
      (fun st => st.lastOutage) = some (some 50) ∧
    maxOfList ((stationEvents "KXXX"
        [⟨"KXXX", "X", 100, "a", some 130, some "b", some 30⟩,
         ⟨"KXXX", "X", 50, "c", some 140, some "d", some 90⟩]).map
      (fun e => e.startTime)) = some 100 ∧
    some (50 : ℤ) ≠ some (100 : ℤ) := by
  refine ⟨by decide, by decide, by decide⟩

unseal Rat.inv Rat.mul Rat.add in
/-- C5 witness: a station with exactly two closed events of 30 and 90
minutes yields totalOutages 2, average 60, longest 90. -/
theorem station_stats_spec_witness :
    statsForStation
        [⟨"KXXX", "X", 100, "a", some 130, some "b", some 30⟩,
         ⟨"KXXX", "X", 200, "c", some 290, some "d", some 90⟩] "KXXX"
      = some ⟨"KXXX", "X", 2, 120, 60, 90, some 100, some 200, false, none⟩ ∧
    (⟨"KXXX", "X", 2, 120, 60, 90, some 100, some 200, false,
        none⟩ : StationStats).totalOutages
      = (stationEvents "KXXX"
          [⟨"KXXX", "X", 100, "a", some 130, some "b", some 30⟩,
           ⟨"KXXX", "X", 200, "c", some 290, some "d", some 90⟩]).length ∧
    (⟨"KXXX", "X", 2, 120, 60, 90, some 100, some 200, false,
        none⟩ : StationStats).averageDowntimeMinutes = 60 ∧
    (⟨"KXXX", "X", 2, 120, 60, 90, some 100, some 200, false,
        none⟩ : StationStats).longestOutageMinutes = 90 := by
  have h0 : statsForStation
      [⟨"KXXX", "X", 100, "a", some 130, some "b", some 30⟩,
       ⟨"KXXX", "X", 200, "c", some 290, some "d", some 90⟩] "KXXX"
      = some ⟨"KXXX", "X", 2, 120, 60, 90, some 100, some 200, false, none⟩ := by
    decide
  have h := station_stats_spec.1 _ "KXXX" _ h0 (by decide)
  exact ⟨h0, h.2.1, by decide, by decide⟩

/-! ### C6: nationwide deduplication -/

lemma strLtb_irrefl : ∀ l : List Char, strLtb l l = false
  | [] => rfl
  | a :: as => by simp [strLtb, strLtb_irrefl as]

lemma strLtb_asymm : ∀ a b : List Char, strLtb a b = true → strLtb b a = false
  | [], [], h => by simp [strLtb] at h
  | [], _ :: _, _ => rfl
  | _ :: _, [], h => by simp [strLtb] at h
  | x :: xs, y :: ys, h => by
      simp only [strLtb] at h ⊢
      by_cases hxy : x < y
      · rw [if_neg (lt_asymm hxy), if_pos hxy]
      · rw [if_neg hxy] at h
        by_cases hyx : y < x
        · rw [if_pos hyx] at h
          exact absurd h (by simp)
        · rw [if_neg hyx] at h
          rw [if_neg hyx, if_neg hxy]
          exact strLtb_asymm xs ys h

lemma strLtb_not_lt_trans : ∀ a b c : List Char,
    strLtb b a = false → strLtb c b = false → strLtb c a = false
  | [], _, c, _, _ => by cases c <;> rfl
  | _ :: _, [], _, h1, _ => by simp [strLtb] at h1
  | _ :: _, _ :: _, [], _, h2 => by simp [strLtb] at h2
  | x :: xs, y :: ys, z :: zs, h1, h2 => by
      simp only [strLtb] at h1 h2 ⊢
      by_cases hyx : y < x
      · rw [if_pos hyx] at h1
        exact absurd h1 (by simp)
      · rw [if_neg hyx] at h1
        by_cases hzy : z < y
        · rw [if_pos hzy] at h2
          exact absurd h2 (by simp)
        · rw [if_neg hzy] at h2
          have hxy : x ≤ y := not_lt.mp hyx
          have hyz : y ≤ z := not_lt.mp hzy
          rw [if_neg (not_lt.mpr (le_trans hxy hyz))]
          by_cases hxz : x < z
          · rw [if_pos hxz]
          · rw [if_neg hxz]
            by_cases hxy' : x < y
            · exact absurd (lt_of_lt_of_le hxy' hyz) hxz
            · rw [if_neg hxy'] at h1
              by_cases hyz' : y < z
              · exact absurd (lt_of_le_of_lt hxy hyz') hxz
              · rw [if_neg hyz'] at h2
                exact strLtb_not_lt_trans xs ys zs h1 h2

lemma pickFresher_ge_left (a b : MetarData) :
    strLtb (zuluKey (pickFresher a b).observation_time).data
      (zuluKey a.observation_time).data = false := by
  unfold pickFresher
  split
  · rename_i hlt
    exact strLtb_asymm _ _ hlt
  · exact strLtb_irrefl _

lemma pickFresher_ge_right (a b : MetarData) :
    strLtb (zuluKey (pickFresher a b).observation_time).data
      (zuluKey b.observation_time).data = false := by
  unfold pickFresher
  split
  · exact strLtb_irrefl _
  · rename_i hlt
    simpa using hlt

lemma zuluKey_le_foldl :
    ∀ (xs : List MetarData) (a : MetarData),
      (strLtb (zuluKey (xs.foldl pickFresher a).observation_time).data
          (zuluKey a.observation_time).data = false) ∧
      ∀ y ∈ xs,
        strLtb (zuluKey (xs.foldl pickFresher a).observation_time).data
          (zuluKey y.observation_time).data = false
  | [], a => ⟨strLtb_irrefl _, by simp⟩
  | b :: t, a => by
      have ih := zuluKey_le_foldl t (pickFresher a b)
      rw [List.foldl_cons]
      refine ⟨?_, ?_⟩
      · exact strLtb_not_lt_trans _ _ _ (pickFresher_ge_left a b) ih.1
      · intro y hy
        rcases List.mem_cons.mp hy with h | h
        · subst h
          exact strLtb_not_lt_trans _ _ _ (pickFresher_ge_right a y) ih.1
        · exact ih.2 y h

lemma alookup_dedupGo :
    ∀ (l : List MetarData) (acc : List (String × MetarData)) (s : String),
      alookup (dedupGo l acc) s =
        match alookup acc s with
        | some cur =>
            some ((l.filter (fun y => decide (y.icao = s))).foldl
              pickFresher cur)
        | none => pickStation s l
  | [], acc, s => by
      cases h : alookup acc s <;> simp [dedupGo, h, pickStation]
  | x :: rest, acc, s => by
      by_cases hxs : x.icao = s
      · subst hxs
        cases hacc : alookup acc x.icao with
        | none =>
            have hstep : dedupStep acc x = aset acc x.icao x := by
              simp [dedupStep, hacc]
            simp only [dedupGo, hstep]
            rw [alookup_dedupGo rest _ x.icao, alookup_aset_self]
            simp [pickStation, List.filter_cons]
        | some cur =>
            have hstep : dedupStep acc x
                = if strLtb (zuluKey cur.observation_time).data
                      (zuluKey x.observation_time).data
                  then aset acc x.icao x else acc := by
              simp [dedupStep, hacc, zuluKey]
            by_cases hlt : strLtb (zuluKey cur.observation_time).data
                (zuluKey x.observation_time).data
            · simp only [dedupGo, hstep, if_pos hlt]
              rw [alookup_dedupGo rest _ x.icao, alookup_aset_self]
              simp [List.filter_cons, pickFresher, hlt]
            · simp only [dedupGo, hstep, if_neg hlt]
              rw [alookup_dedupGo rest acc x.icao, hacc]
              have hfilter : (x :: rest).filter (fun y => decide (y.icao = x.icao))
                  = x :: rest.filter (fun y => decide (y.icao = x.icao)) := by
                simp [List.filter_cons]
              rw [hfilter, List.foldl_cons]
              have hpick : pickFresher cur x = cur := by
                unfold pickFresher
                rw [if_neg hlt]
              rw [hpick]
      · have hne : s ≠ x.icao := fun hh => hxs hh.symm
        have hstep : alookup (dedupStep acc x) s = alookup acc s := by
          unfold dedupStep
          cases hacc : alookup acc x.icao with
          | none => simp [alookup_aset_ne _ _ _ _ hne]
          | some cur =>
              dsimp only
              by_cases hc : strLtb
                  (if cur.observation_time = "" then "000000Z"
                   else cur.observation_time).data
                  (if x.observation_time = "" then "000000Z"
                   else x.observation_time).data = true
              · rw [if_pos hc]
                exact alookup_aset_ne _ _ _ _ hne
              · rw [if_neg hc]
        have hfilter : (x :: rest).filter (fun y => decide (y.icao = s))
            = rest.filter (fun y => decide (y.icao = s)) := by
          simp [List.filter_cons, hxs]
        have hpick : pickStation s (x :: rest) = pickStation s rest := by
          unfold pickStation
          rw [hfilter]
        simp only [dedupGo]
        rw [alookup_dedupGo rest _ s, hstep, hfilter, hpick]

/-- C6 (amended): per station the retained Observation is the left fold of
the pairwise merge that keeps the later record exactly when its sentinel key
(`observationZulu`, with `"000000Z"` substituted for an empty string) is
strictly greater; consequently the retained record's sentinel key is maximal
among the station's records (the earliest record wins ties, including an
empty Zulu against a literal `"000000Z"`), and merging a station's
Observation with itself retains that same Observation. -/
theorem dedup_spec :
    (∀ (l : List MetarData) (s : String),
        alookup (dedupMetars l) s = pickStation s l) ∧
    (∀ (l : List MetarData) (s : String) (r : MetarData),
        alookup (dedupMetars l) s = some r →
        ∀ y ∈ l, y.icao = s →
          strLtb (zuluKey r.observation_time).data
            (zuluKey y.observation_time).data = false) ∧
    (∀ x : MetarData, alookup (dedupMetars [x, x]) x.icao = some x) := by
  have hmain : ∀ (l : List MetarData) (s : String),
      alookup (dedupMetars l) s = pickStation s l := by
    intro l s
    unfold dedupMetars
    rw [alookup_dedupGo l [] s]
    rfl
  refine ⟨hmain, ?_, ?_⟩
  · intro l s r hr y hy hicao
    rw [hmain] at hr
    unfold pickStation at hr
    cases hf : l.filter (fun z => decide (z.icao = s)) with
    | nil =>
        rw [hf] at hr
        simp at hr
    | cons x0 xs =>
        rw [hf] at hr
        simp only [Option.some.injEq] at hr
        have hymem : y ∈ x0 :: xs := by
          rw [← hf]
          exact List.mem_filter.mpr ⟨hy, by simp [hicao]⟩
        subst hr
        rcases List.mem_cons.mp hymem with h | h
        · subst h
          exact (zuluKey_le_foldl xs y).1
        · exact (zuluKey_le_foldl xs x0).2 y h
  · intro x
    rw [hmain]
    unfold pickStation
    simp [List.filter_cons, pickFresher, strLtb_irrefl]

/-- C6 counterexample: a first record with an empty Zulu string and a second
with the literal `"000000Z"` tie under the source's sentinel comparison, so
the first (empty) record is retained; the claim's order ranks `"000000Z"`
strictly above the empty string and would require the second record. -/
theorem dedup_empty_zulu_cx :
    alookup (dedupMetars
      [⟨"KXXX", "A", "", .undef, "VFR", [], false⟩,
       ⟨"KXXX", "B", "000000Z", .undef, "VFR", [], false⟩]) "KXXX"
      = some ⟨"KXXX", "A", "", .undef, "VFR", [], false⟩ ∧
    specFresher "" "000000Z" ∧
    (⟨"KXXX", "A", "", .undef, "VFR", [], false⟩ : MetarData)
      ≠ ⟨"KXXX", "B", "000000Z", .undef, "VFR", [], false⟩ := by
  refine ⟨by decide, by unfold specFresher; decide, by decide⟩

/-- C6 witness: the amended statement evaluated concretely — the fresher
`"131212Z"` record wins, its key dominates the older record's key, and
merging a record with itself is the identity. -/
theorem dedup_spec_witness :
    alookup (dedupMetars
        [⟨"K1", "A", "121212Z", .undef, "VFR", [], false⟩,
         ⟨"K1", "B", "131212Z", .undef, "VFR", [], false⟩]) "K1"
      = pickStation "K1"
          [⟨"K1", "A", "121212Z", .undef, "VFR", [], false⟩,
           ⟨"K1", "B", "131212Z", .undef, "VFR", [], false⟩] ∧
    strLtb (zuluKey (⟨"K1", "B", "131212Z", .undef, "VFR", [],
        false⟩ : MetarData).observation_time).data
      (zuluKey ("121212Z" : String)).data = false ∧
    alookup (dedupMetars
        [⟨"K2", "A", "121212Z", .undef, "VFR", [], false⟩,
         ⟨"K2", "A", "121212Z", .undef, "VFR", [], false⟩]) "K2"
      = some ⟨"K2", "A", "121212Z", .undef, "VFR", [], false⟩ := by
  refine ⟨dedup_spec.1 _ _, ?_, ?_⟩
  · exact dedup_spec.2.1
      [⟨"K1", "A", "121212Z", .undef, "VFR", [], false⟩,
       ⟨"K1", "B", "131212Z", .undef, "VFR", [], false⟩] "K1"
      ⟨"K1", "B", "131212Z", .undef, "VFR", [], false⟩ (by decide)
      ⟨"K1", "A", "121212Z", .undef, "VFR", [], false⟩ (by simp) rfl
  · exact dedup_spec.2.2 ⟨"K2", "A", "121212Z", .undef, "VFR", [], false⟩

/-! ### C8: maintenance flag from the raw report -/

lemma endsWith_singleton_iff (l : List Char) (c : Char) :
    endsWithL l [c] = true ↔ l.getLast? = some c := by
  unfold endsWithL
  rw [List.isSuffixOf]
  have hrev : l.getLast? = l.reverse.head? := (List.head?_reverse l).symm
  rw [hrev]
  cases hr : l.reverse with
  | nil =>
      rw [show ([c].reverse.isPrefixOf ([] : List Char)) = false from rfl]
      simp
  | cons b bs =>
      rw [show ([c].reverse.isPrefixOf (b :: bs))
          = (c == b && List.isPrefixOf [] bs) from rfl]
      have hnil : (List.isPrefixOf ([] : List Char) bs) = true := by
        cases bs <;> rfl
      rw [hnil]
      simp only [Bool.and_true, beq_iff_eq, List.head?_cons,
        Option.some.injEq]
      exact eq_comm

lemma dropWhile_append_dollar (l : List Char) :
    (l ++ ['$']).dropWhile isJsSpace = (l.dropWhile isJsSpace) ++ ['$'] := by
  induction l with
  | nil =>
      simp [List.dropWhile_cons]
      decide
  | cons a as ih =>
      by_cases ha : isJsSpace a
      · simp [List.dropWhile_cons, ha, ih]
      · simp [List.dropWhile_cons, ha]

lemma jsTrimL_append_dollar (l : List Char) :
    (jsTrimL (l ++ ['$'])).getLast? = some '$' := by
  unfold jsTrimL
  rw [dropWhile_append_dollar, List.reverse_append]
  simp only [List.reverse_cons, List.reverse_nil, List.nil_append,
    List.singleton_append]
  rw [List.dropWhile_cons]
  simp only [show isJsSpace '$' = false from rfl, Bool.false_eq_true,
    if_false]
  rw [List.reverse_cons, List.getLast?_concat]

/-- C8: the decoded maintenance flag is true exactly when the raw report
text, after JS trimming, ends with the character `$` (absent raw text reads
false); appending `"$"` to any raw string turns the flag on, a trimmed raw
text not ending in `$` leaves it off, and `transformMetar` copies exactly
this derivation — no other encoding is consulted. -/
theorem maintenance_flag_spec :
    (∀ s : String, hasMaintFlag (some s) = true
        ↔ (jsTrimL s.data).getLast? = some '$') ∧
    hasMaintFlag none = false ∧
    (∀ s : String, hasMaintFlag (some (s ++ "$")) = true) ∧
    (∀ s : String, (jsTrimL s.data).getLast? ≠ some '$' →
        hasMaintFlag (some s) = false) ∧
    (∀ (awc : AwcMetar) (z : String),
        (transformMetar awc z).has_maintenance_flag
          = hasMaintFlag awc.rawOb) := by
  have hiff : ∀ s : String, hasMaintFlag (some s) = true
      ↔ (jsTrimL s.data).getLast? = some '$' := by
    intro s
    unfold hasMaintFlag
    exact endsWith_singleton_iff _ _
  refine ⟨hiff, rfl, ?_, ?_, fun awc z => rfl⟩
  · intro s
    rw [hiff (s ++ "$")]
    have hdata : (s ++ "$").data = s.data ++ ['$'] := by
      rw [String.data_append]
    rw [hdata]
    exact jsTrimL_append_dollar s.data
  · intro s hne
    cases hfl : hasMaintFlag (some s) with
    | false => rfl
    | true => exact absurd ((hiff s).mp hfl) hne

/-- C8 witness: the round trip evaluated concretely — a report without a
trailing `$` decodes false, and appending `"$"` decodes true. -/
theorem maintenance_flag_spec_witness :
    (jsTrimL ("KJFK AUTO" : String).data).getLast? ≠ some '$' ∧
    hasMaintFlag (some "KJFK AUTO") = false ∧
    hasMaintFlag (some ("KJFK RMK " ++ "$")) = true := by
  have h1 : (jsTrimL ("KJFK AUTO" : String).data).getLast? ≠ some '$' := by
    decide
  exact ⟨h1, maintenance_flag_spec.2.2.2.1 "KJFK AUTO" h1,
    maintenance_flag_spec.2.2.1 "KJFK RMK "⟩

/-! ### C9: persistence failure semantics -/

/-- C9: a failed or empty read (Redis error, null blob, ENOENT, or file read
error) yields the empty ledger instead of propagating an error, and a failed
write-back makes POST return the explicit persist-failure reply — the
processed batch is still the reply's data, never silently dropped — while a
successful save reports success. -/
theorem persistence_fail_semantics :
    (∀ f : FileRead, getData true .failed f = emptyData) ∧
    (∀ f : FileRead, getData true .nullBlob f = emptyData) ∧
    (∀ r : RedisRead, getData false r .missing = emptyData) ∧
    (∀ r : RedisRead, getData false r .failed = emptyData) ∧
    (∀ (cfg : Bool) (r : RedisRead) (f : FileRead) (now : ℤ)
        (us : List MaintUpdate),
        (runPOST cfg r f now us false).1 = .persistFailed ∧
        (runPOST cfg r f now us false).2
          = processBatch now (getData cfg r f) us ∧
        (runPOST cfg r f now us true).1 = .ok) :=
  ⟨fun _ => rfl, fun _ => rfl, fun _ => rfl, fun _ => rfl,
    fun _ _ _ _ _ => ⟨rfl, rfl, rfl⟩⟩

/-! ### C10: flight-category passthrough in METAR decoding -/

/-- C10: `transformMetar` assigns `"VFR"` whenever the provider's `fltCat`
is absent or empty, without running the visibility/ceiling derivation — at a
record whose own data would derive LIFR the output is still `"VFR"` — while
every TAF forecast period's category is computed by `determineFltCat` from
the period's own fields. -/
theorem flight_category_passthrough :
    (∀ (awc : AwcMetar) (z : String),
        (awc.fltCat = none ∨ awc.fltCat = some "") →
        (transformMetar awc z).flight_category = "VFR") ∧
    (∀ fcsts : List AwcTafPeriod,
        (transformTafForecasts fcsts).map (fun f => f.flight_category)
          = fcsts.map (fun f => determineFltCat f.visib f.clouds)) ∧
    ((transformMetar ⟨"KXXX", some "RAW", "N", .num 0, none,
        some [⟨"OVC", 100⟩]⟩ "").flight_category = "VFR" ∧
      determineFltCat (JSVis.num 0) (some [⟨"OVC", 100⟩]) = .LIFR) := by
  refine ⟨?_, ?_, by decide, by decide⟩
  · intro awc z h
    rcases h with h | h <;> simp [transformMetar, h]
  · intro fcsts
    simp [transformTafForecasts]

/-- C10 witness: a record with no `fltCat` decodes to `"VFR"`. -/
theorem flight_category_passthrough_witness :
    (transformMetar ⟨"KLAX", some "R", "N", .num 10, none, none⟩
      "").flight_category = "VFR" :=
  flight_category_passthrough.1 ⟨"KLAX", some "R", "N", .num 10, none, none⟩
    "" (Or.inl rfl)
